import Mathlib

noncomputable section

/-
Shallow embedding of acp/modules/attention.py (Set Transformer blocks:
MAB, SAB, StackedSAB, PMA, ISAB, StackedISAB, aPMA).

Modelling conventions:
* A batched tensor of logical shape [n0, n1, n2] is a `Tensor3`: the three
  extents plus a total valuation `val : ℕ → ℕ → ℕ → ℝ` (indices outside the
  extents carry junk values).  A mask of shape [n0, n1] is a `Tensor2`.
* Float arithmetic is idealised as real arithmetic.  The two non-real float
  values the code manufactures on purpose - the `-inf` written by
  `masked_fill_` and the NaN a softmax produces on an all `-inf` row - are
  modelled by the three-valued type `RVal` (finite / -inf / NaN), exactly on
  the segment of the pipeline (lines 59-65) where they can occur.
* Parameters (projection weights, seeds, LayerNorm affine weights) are
  created by the framework's random initialisation; the embedded
  constructors receive them explicitly and store them, mirroring the
  field wiring of each `__init__`.
* `nn.Dropout(p)` is only instantiated when `p is not None` (lines 34-35);
  otherwise both dropout units are `nn.Identity`.  The embedding keeps the
  configured `p` in the parameter record and embeds the forward pass in the
  dropout-disabled (`p = None`, identity) configuration, which is the
  configuration every specification claim addresses.
* Only the batched (`X.dim() == 3`) path of `PMA.forward` is embedded; every
  composite in the file calls `PMA` on batched input.
-/

/-- A float value on the masked-softmax segment: an ordinary finite value,
the `-inf` produced by `masked_fill_`, or a NaN. -/
inductive RVal where
  | fin : ℝ → RVal
  | ninf : RVal
  | nan : RVal

/-- `exp` on such a value: `exp` of a finite real, and `exp(-inf) = 0`.
(NaN never reaches an `exp` in the embedded pipeline; the branch is junk.) -/
def expv : RVal → ℝ
  | RVal.fin x => Real.exp x
  | RVal.ninf => 0
  | RVal.nan => 0

/-- `A.masked_fill(torch.isnan(A), 0.0)` applied entrywise (line 65): NaN
becomes 0, a finite value is kept.  (Post-softmax entries are finite or NaN;
the `-inf` branch is junk.) -/
def nanToZero : RVal → ℝ
  | RVal.fin x => x
  | RVal.ninf => 0
  | RVal.nan => 0

/-- `torch.softmax` along a row of length `ny` whose entries are finite or
`-inf`: exponentiate (with `exp(-inf) = 0`) and normalise by the row sum; a
row that is entirely `-inf` has sum 0 and yields NaN in every position. -/
def softmaxNum (ny : ℕ) (row : ℕ → RVal) (j : ℕ) : RVal :=
  if (∑ t in Finset.range ny, expv (row t)) = 0 then RVal.nan
  else RVal.fin (expv (row j) / ∑ t in Finset.range ny, expv (row t))

/-- A batched 3-dimensional tensor of logical shape [n0, n1, n2]. -/
@[ext]
structure Tensor3 where
  n0 : ℕ
  n1 : ℕ
  n2 : ℕ
  val : ℕ → ℕ → ℕ → ℝ

/-- A 2-dimensional tensor (a mask) of logical shape [n0, n1]. -/
@[ext]
structure Tensor2 where
  n0 : ℕ
  n1 : ℕ
  val : ℕ → ℕ → ℝ

/-- Entrywise addition (`+` on same-shape tensors). -/
def Tensor3.add (A B : Tensor3) : Tensor3 :=
  ⟨A.n0, A.n1, A.n2, fun b i j => A.val b i j + B.val b i j⟩

/-- `F.relu`, entrywise `max 0`. -/
def Tensor3.relu (A : Tensor3) : Tensor3 :=
  ⟨A.n0, A.n1, A.n2, fun b i j => max (A.val b i j) 0⟩

/-- `transpose(-2, -1)`: swap the last two axes. -/
def Tensor3.transpose12 (A : Tensor3) : Tensor3 :=
  ⟨A.n0, A.n2, A.n1, fun a i j => A.val a j i⟩

/-- Batched matrix multiplication `A @ B`. -/
def Tensor3.bmm (A B : Tensor3) : Tensor3 :=
  ⟨A.n0, A.n1, B.n2, fun a i j => ∑ t in Finset.range A.n2, A.val a i t * B.val a t j⟩

/-- Division of every entry by a scalar. -/
def Tensor3.divScalar (A : Tensor3) (c : ℝ) : Tensor3 :=
  ⟨A.n0, A.n1, A.n2, fun b i j => A.val b i j / c⟩

/-- `torch.cat(Q.chunk(nh, -1), 0)` (lines 50-52) for `nh` dividing the
feature extent: chunk the last axis into `nh` pieces of width `n2 / nh` and
stack them along axis 0, head-major (`a = h * n0 + b ↦ (b, column h * (n2/nh) + j)`). -/
def Tensor3.splitHeads (A : Tensor3) (nh : ℕ) : Tensor3 :=
  ⟨nh * A.n0, A.n1, A.n2 / nh,
    fun a i j => A.val (a % A.n0) i ((a / A.n0) * (A.n2 / nh) + j)⟩

/-- `torch.cat(M.chunk(nh, 0), -1)` (lines 69-70) for `nh` dividing the batch
extent: the inverse reshaping, concatenating the `nh` head blocks back along
the feature axis. -/
def Tensor3.mergeHeads (A : Tensor3) (nh : ℕ) : Tensor3 :=
  ⟨A.n0 / nh, A.n1, nh * A.n2,
    fun b i c => A.val ((c / A.n2) * (A.n0 / nh) + b) i (c % A.n2)⟩

/-- `torch.cat([A, B], 1)`: concatenation along axis 1. -/
def Tensor3.cat1 (A B : Tensor3) : Tensor3 :=
  ⟨A.n0, A.n1 + B.n1, A.n2,
    fun b i j => if i < A.n1 then A.val b i j else B.val b (i - A.n1) j⟩

/-- `A.repeat(r, 1, 1)`: tile `r` times along axis 0. -/
def Tensor3.repeat0 (A : Tensor3) (r : ℕ) : Tensor3 :=
  ⟨r * A.n0, A.n1, A.n2, fun b i j => A.val (b % A.n0) i j⟩

/-- The weight and bias of one `nn.Linear` unit. -/
structure LinearP where
  w : ℕ → ℕ → ℝ
  b : ℕ → ℝ

/-- `nn.Linear` applied to the last axis: `y[..., j] = Σ_k w[j,k] x[..., k] + b[j]`,
projecting to `dout` features. -/
def linearLast (f : LinearP) (dout : ℕ) (X : Tensor3) : Tensor3 :=
  ⟨X.n0, X.n1, dout,
    fun b i j => (∑ k in Finset.range X.n2, f.w j k * X.val b i k) + f.b j⟩

/-- `nn.LayerNorm` default epsilon (1e-5). -/
def lnEps : ℝ := 1 / 100000

/-- `nn.LayerNorm` over one feature row of length `n`: normalise by the row
mean and biased row variance, then apply the learned affine `g, bt`. -/
def layerNormRow (g bt : ℕ → ℝ) (n : ℕ) (row : ℕ → ℝ) (j : ℕ) : ℝ :=
  g j * ((row j - (∑ t in Finset.range n, row t) / n) /
      Real.sqrt ((∑ t in Finset.range n, (row t - (∑ u in Finset.range n, row u) / n) ^ 2) / n
        + lnEps)) + bt j

/-- The randomly initialised weights an `MAB.__init__` call consumes: the four
projection units and the affine weights of the two LayerNorm units. -/
structure MABWeights where
  wq : LinearP
  wk : LinearP
  wv : LinearP
  wo : LinearP
  g1 : ℕ → ℝ
  h1 : ℕ → ℝ
  g2 : ℕ → ℝ
  h2 : ℕ → ℝ

/-- The state an `MAB` module holds after construction (lines 23-37). -/
structure MABParams where
  dim_X : ℕ
  dim_Y : ℕ
  dim : ℕ
  num_heads : ℕ
  fc_q : LinearP
  fc_k : LinearP
  fc_v : LinearP
  fc_o : LinearP
  lnFlag : Bool
  g1 : ℕ → ℝ
  h1 : ℕ → ℝ
  g2 : ℕ → ℝ
  h2 : ℕ → ℝ
  p : Option ℝ
  residual : Bool

/-- `MAB.__init__(dim_X, dim_Y, dim, num_heads, ln, p, residual)` (lines
23-37): store the head count, the four projections, the LayerNorm-or-Identity
and Dropout-or-Identity choices and the residual flag.  The source performs
no validation of any kind. -/
def mkMAB (dX dY dim nh : ℕ) (lnF : Bool) (p : Option ℝ) (res : Bool)
    (W : MABWeights) : MABParams :=
  ⟨dX, dY, dim, nh, W.wq, W.wk, W.wv, W.wo, lnF, W.g1, W.h1, W.g2, W.h2, p, res⟩

/-- `MAB.__init__` viewed as a fallible constructor (a Python call that could
raise).  The source body contains no check and no raise path, so it always
returns `ok`. -/
def mabInit (dX dY dim nh : ℕ) (lnF : Bool) (p : Option ℝ) (res : Bool)
    (W : MABWeights) : Except String MABParams :=
  Except.ok (mkMAB dX dY dim nh lnF p res W)

/-- `Q = self.fc_q(X)` (line 45). -/
def mabQ (P : MABParams) (X : Tensor3) : Tensor3 := linearLast P.fc_q P.dim X

/-- `K = self.fc_k(Y)` (line 45). -/
def mabK (P : MABParams) (Y : Tensor3) : Tensor3 := linearLast P.fc_k P.dim Y

/-- `V = self.fc_v(Y)` (line 45). -/
def mabV (P : MABParams) (Y : Tensor3) : Tensor3 := linearLast P.fc_v P.dim Y

/-- `A_logits = (Q_ @ K_.transpose(-2, -1)) / math.sqrt(Q.shape[-1])`
(lines 50-57), with `Q_`, `K_` the head-split projections.  Note the scale
reads the last extent of the unsplit `Q`. -/
def mabLogits (P : MABParams) (X Y : Tensor3) : Tensor3 :=
  (((mabQ P X).splitHeads P.num_heads).bmm
      ((mabK P Y).splitHeads P.num_heads).transpose12).divScalar
    (Real.sqrt ((mabQ P X).n2 : ℝ))

/-- `torch.stack([mask] * Q.shape[-2], -2)` (line 60): broadcast a
[batch, ny] mask across the query axis to [batch, nx, ny]. -/
def maskStack (nx : ℕ) (m : Tensor2) : Tensor3 :=
  ⟨m.n0, nx, m.n1, fun b _ j => m.val b j⟩

/-- `torch.cat([mask] * num_heads, 0)` (line 61): tile the broadcast mask
across the heads to [batch * nh, nx, ny]. -/
def maskHeads (nh : ℕ) (m3 : Tensor3) : Tensor3 :=
  ⟨nh * m3.n0, m3.n1, m3.n2, fun a i j => m3.val (a % m3.n0) i j⟩

/-- `A_logits.masked_fill_(mask == 0, -float('inf'))` (line 62): a logit at a
masked-out position becomes `-inf`, every other entry stays finite. -/
def maskedLogit (mB L : Tensor3) : ℕ → ℕ → ℕ → RVal :=
  fun a i j => if mB.val a i j = 0 then RVal.ninf else RVal.fin (L.val a i j)

/-- Lines 63-65: softmax over the last axis of the `-inf`-filled logits,
then `masked_fill(isnan, 0.0)`. -/
def maskedSoftmaxZ (mB L : Tensor3) : Tensor3 :=
  ⟨L.n0, L.n1, L.n2, fun a i j => nanToZero (softmaxNum L.n2 (maskedLogit mB L a i) j)⟩

/-- `torch.softmax(A_logits, -1)` on finite logits (line 67). -/
def plainSoftmax (L : Tensor3) : Tensor3 :=
  ⟨L.n0, L.n1, L.n2,
    fun a i j => Real.exp (L.val a i j) /
      ∑ t in Finset.range L.n2, Real.exp (L.val a i t)⟩

/-- The attention matrix `A` of `MAB.forward` (lines 59-67): the masked
softmax pipeline when a mask is supplied, a plain softmax otherwise. -/
def mabA (P : MABParams) (X Y : Tensor3) (mask : Option Tensor2) : Tensor3 :=
  match mask with
  | none => plainSoftmax (mabLogits P X Y)
  | some m =>
      maskedSoftmaxZ (maskHeads P.num_heads (maskStack (mabQ P X).n1 m))
        (mabLogits P X Y)

/-- `attn = torch.cat((A @ V_).chunk(num_heads, 0), -1)` (lines 69-70). -/
def mabAttn (P : MABParams) (X Y : Tensor3) (mask : Option Tensor2) : Tensor3 :=
  ((mabA P X Y mask).bmm ((mabV P Y).splitHeads P.num_heads)).mergeHeads P.num_heads

/-- `self.ln1` application: LayerNorm over the feature axis when `ln=True`,
`nn.Identity` otherwise (line 32). -/
def ln1App (P : MABParams) (T : Tensor3) : Tensor3 :=
  if P.lnFlag then
    ⟨T.n0, T.n1, T.n2, fun b i j => layerNormRow P.g1 P.h1 T.n2 (T.val b i) j⟩
  else T

/-- `self.ln2` application (line 33). -/
def ln2App (P : MABParams) (T : Tensor3) : Tensor3 :=
  if P.lnFlag then
    ⟨T.n0, T.n1, T.n2, fun b i j => layerNormRow P.g2 P.h2 T.n2 (T.val b i) j⟩
  else T

/-- The first combination step of `MAB.forward` (lines 71-75, dropout
disabled): `ln1(Q + attn)` when `residual=True`, `ln1(attn)` otherwise. -/
def mabO1 (P : MABParams) (X Y : Tensor3) (mask : Option Tensor2) : Tensor3 :=
  if P.residual then ln1App P ((mabQ P X).add (mabAttn P X Y mask))
  else ln1App P (mabAttn P X Y mask)

/-- `MAB.forward(X, Y, mask)` (lines 39-77, dropout disabled): the second
combination step `ln2(O + relu(fc_o(O)))` applied to the first step's
output in both residual branches. -/
def mabForward (P : MABParams) (X Y : Tensor3) (mask : Option Tensor2) : Tensor3 :=
  ln2App P ((mabO1 P X Y mask).add (linearLast P.fc_o P.dim (mabO1 P X Y mask)).relu)

/-- `SAB.forward(X, mask) = self.mab(X, X, mask)` (lines 85-86), with the
internal MAB built as `MAB(dim_X, dim_X, dim, **kwargs)` (line 83). -/
def sabForward (P : MABParams) (X : Tensor3) (mask : Option Tensor2) : Tensor3 :=
  mabForward P X X mask

/-- `SAB.__init__(dim_X, dim, **kwargs)` (lines 81-83). -/
def mkSAB (dX dim nh : ℕ) (lnF : Bool) (p : Option ℝ) (res : Bool)
    (W : MABWeights) : MABParams :=
  mkMAB dX dX dim nh lnF p res W

/-- `StackedSAB.__init__` (lines 90-94): the block list
`[SAB(dim_X, dim)] + [SAB(dim, dim)] * (num_blocks - 1)`.  The Python list
multiplication replicates one and the same constructed `SAB` object, so one
inner weight draw `Winner` is shared by every block after the first. -/
def mkStackedSAB (dX dim numBlocks nh : ℕ) (lnF : Bool) (p : Option ℝ) (res : Bool)
    (Wfirst Winner : MABWeights) : List MABParams :=
  mkSAB dX dim nh lnF p res Wfirst ::
    List.replicate (numBlocks - 1) (mkSAB dim dim nh lnF p res Winner)

/-- `StackedSAB.forward` (lines 96-99): fold the blocks over the input,
passing the same mask to every block. -/
def stackedSABForward (blocks : List MABParams) (X : Tensor3)
    (mask : Option Tensor2) : Tensor3 :=
  blocks.foldl (fun acc P => sabForward P acc mask) X

/-- The state a `PMA` module holds (lines 102-107): the learned seed tensor
`I` of shape [num_inds, dim] and the internal `MAB(dim, dim_X, dim)`. -/
structure PMAParams where
  seedI : ℕ → ℕ → ℝ
  num_inds : ℕ
  dim : ℕ
  mab : MABParams

/-- `PMA.__init__(dim_X, dim, num_inds, **kwargs)` (lines 103-107). -/
def mkPMA (dX dim numInds nh : ℕ) (lnF : Bool) (p : Option ℝ) (res : Bool)
    (seed : ℕ → ℕ → ℝ) (W : MABWeights) : PMAParams :=
  ⟨seed, numInds, dim, mkMAB dim dX dim nh lnF p res W⟩

/-- `PMA.forward(X, mask)` on batched input (lines 109-111): broadcast the
seeds across the batch (`self.I.repeat(X.shape[0], 1, 1)`) and compute
`self.mab(I, X, mask)`. -/
def pmaForward (P : PMAParams) (X : Tensor3) (mask : Option Tensor2) : Tensor3 :=
  mabForward P.mab ⟨X.n0, P.num_inds, P.dim, fun _ i j => P.seedI i j⟩ X mask

/-- The state an `ISAB` module holds (lines 114-118): a
`PMA(dim_X, dim, num_inds)` and an `MAB(dim_X, dim, dim)`. -/
structure ISABParams where
  pma : PMAParams
  mab : MABParams

/-- `ISAB.__init__(dim_X, dim, num_inds, **kwargs)` (lines 115-118). -/
def mkISAB (dX dim numInds nh : ℕ) (lnF : Bool) (p : Option ℝ) (res : Bool)
    (seed : ℕ → ℕ → ℝ) (Wp Wm : MABWeights) : ISABParams :=
  ⟨mkPMA dX dim numInds nh lnF p res seed Wp, mkMAB dX dim dim nh lnF p res Wm⟩

/-- `ISAB.forward(X, mask) = self.mab(X, self.pma(X, mask=mask))` (lines
120-121): the mask goes only to the pooling stage; the outer MAB call passes
no mask (its default `mask=None`). -/
def isabForward (P : ISABParams) (X : Tensor3) (mask : Option Tensor2) : Tensor3 :=
  mabForward P.mab X (pmaForward P.pma X mask) none

/-- `StackedISAB.__init__` (lines 125-129): the block list
`[ISAB(dim_X, dim, num_inds)] + [ISAB(dim, dim, num_inds)] * (num_blocks - 1)`,
with the same Python object replication as `StackedSAB`. -/
def mkStackedISAB (dX dim numInds numBlocks nh : ℕ) (lnF : Bool) (p : Option ℝ)
    (res : Bool) (seedF : ℕ → ℕ → ℝ) (WpF WmF : MABWeights)
    (seedI : ℕ → ℕ → ℝ) (WpI WmI : MABWeights) : List ISABParams :=
  mkISAB dX dim numInds nh lnF p res seedF WpF WmF ::
    List.replicate (numBlocks - 1) (mkISAB dim dim numInds nh lnF p res seedI WpI WmI)

/-- `StackedISAB.forward` (lines 131-134). -/
def stackedISABForward (blocks : List ISABParams) (X : Tensor3)
    (mask : Option Tensor2) : Tensor3 :=
  blocks.foldl (fun acc P => isabForward P acc mask) X

/-- The state an `aPMA` module holds (lines 137-143): the initial seed `I0`
of shape [1, 1, dim], a `PMA(dim, dim, 1)` and an `MAB(dim, dim_X, dim)`. -/
structure APMAParams where
  I0v : ℕ → ℝ
  dim : ℕ
  pma : PMAParams
  mab : MABParams

/-- `aPMA.__init__(dim_X, dim, **kwargs)` (lines 138-143). -/
def mkAPMA (dX dim nh : ℕ) (lnF : Bool) (p : Option ℝ) (res : Bool)
    (i0 : ℕ → ℝ) (seed : ℕ → ℕ → ℝ) (Wp Wm : MABWeights) : APMAParams :=
  ⟨i0, dim, mkPMA dim dim 1 nh lnF p res seed Wp, mkMAB dim dX dim nh lnF p res Wm⟩

/-- The `I0` parameter viewed as its [1, 1, dim] tensor. -/
def apmaI0 (P : APMAParams) : Tensor3 := ⟨1, 1, P.dim, fun _ _ j => P.I0v j⟩

/-- The seed-growing loop of `aPMA.forward` (lines 146-148): starting from
`I0`, perform `num_iters - 1` iterations of `I = torch.cat([I, self.pma(I)], 1)`. -/
def apmaGrow (P : APMAParams) (numIters : ℕ) : Tensor3 :=
  (fun I => I.cat1 (pmaForward P.pma I none))^[numIters - 1] (apmaI0 P)

/-- `aPMA.forward(X, num_iters)` (lines 145-149): grow the seed collection,
tile it across the batch, and attend it onto `X` with no mask. -/
def apmaForward (P : APMAParams) (X : Tensor3) (numIters : ℕ) : Tensor3 :=
  mabForward P.mab ((apmaGrow P numIters).repeat0 X.n0) X none

/-- Claim-side construction: the action of reindexing the set axis (axis 1)
of a batched tensor by `σ` (row `i` of the result is row `σ i` of the input). -/
def permuteRows (σ : ℕ → ℕ) (A : Tensor3) : Tensor3 :=
  ⟨A.n0, A.n1, A.n2, fun b i j => A.val b (σ i) j⟩

/-- Claim-side construction: the same reindexing on the key axis of a mask. -/
def permuteCols2 (σ : ℕ → ℕ) (m : Tensor2) : Tensor2 :=
  ⟨m.n0, m.n1, fun b j => m.val b (σ j)⟩

/-- Claim-side construction: reindexing of the last axis of a 3-tensor by `σ`. -/
def permuteCols3 (σ : ℕ → ℕ) (A : Tensor3) : Tensor3 :=
  ⟨A.n0, A.n1, A.n2, fun a i j => A.val a i (σ j)⟩

/-- Claim-side construction: an all-ones (all-valid) mask of a given shape. -/
def onesMask (b n : ℕ) : Tensor2 := ⟨b, n, fun _ _ => 1⟩

/-- The spec's alternative residual base for the first combination step of
`MAB.forward`: the raw input `X` instead of the projected `Q`
(spec 4.1 step 6 flags that the code uses `Q`, not `X`). -/
def mabO1rawX (P : MABParams) (X Y : Tensor3) (mask : Option Tensor2) : Tensor3 :=
  ln1App P (X.add (mabAttn P X Y mask))

/-- An all-zero linear unit. -/
def zeroLin : LinearP := ⟨fun _ _ => 0, fun _ => 0⟩

/-- A weight-1, bias-0 linear unit (the identity on 1-feature input). -/
def idLin : LinearP := ⟨fun _ _ => 1, fun _ => 0⟩

/-- A weight-2, bias-0 linear unit. -/
def twoLin : LinearP := ⟨fun _ _ => 2, fun _ => 0⟩

/-- An all-zero weight bundle. -/
def zeroW : MABWeights :=
  ⟨zeroLin, zeroLin, zeroLin, zeroLin, fun _ => 0, fun _ => 0, fun _ => 0, fun _ => 0⟩

/-- Identity q/k/v projections, zero output projection. -/
def exW1 : MABWeights :=
  ⟨idLin, idLin, idLin, zeroLin, fun _ => 0, fun _ => 0, fun _ => 0, fun _ => 0⟩

/-- Doubling query projection, identity key projection, zero value and
output projections. -/
def exW2 : MABWeights :=
  ⟨twoLin, idLin, zeroLin, zeroLin, fun _ => 0, fun _ => 0, fun _ => 0, fun _ => 0⟩

/-- A 1-dimensional, 1-head MAB with all-zero weights. -/
def exMABzero : MABParams := mkMAB 1 1 1 1 false none true zeroW

/-- A 1-dimensional, 1-head MAB with identity q/k/v and zero output
projection. -/
def exMABouter : MABParams := mkMAB 1 1 1 1 false none true exW1

/-- A 1-dimensional, 1-head MAB with doubling query projection and zero
value projection. -/
def exMABc6 : MABParams := mkMAB 1 1 1 1 false none true exW2

/-- A PMA with one zero seed over the all-zero MAB. -/
def exPMA : PMAParams := mkPMA 1 1 1 1 false none true (fun _ _ => 0) zeroW

/-- An ISAB whose pooling stage is `exPMA` and whose outer MAB is
`exMABouter`. -/
def exISAB : ISABParams := ⟨exPMA, exMABouter⟩

/-- A concrete batch of one set with two 1-dimensional elements, 0 and 1. -/
def exX : Tensor3 := ⟨1, 2, 1, fun _ i _ => if i = 0 then 0 else 1⟩

/-- A concrete batch of one set with a single 1-dimensional element of
value 1. -/
def exY1 : Tensor3 := ⟨1, 1, 1, fun _ _ _ => 1⟩

/-- The all-invalid mask of shape [1, 1]. -/
def exMask0 : Tensor2 := ⟨1, 1, fun _ _ => 0⟩

/-- A batch of one set with two 1-dimensional elements, 1 and 5. -/
def exYv : Tensor3 := ⟨1, 2, 1, fun _ i _ => if i = 0 then 1 else 5⟩

/-- Like `exYv` but with the second (masked-out) element changed to 7. -/
def exYw : Tensor3 := ⟨1, 2, 1, fun _ i _ => if i = 0 then 1 else 7⟩

/-- The mask marking only position 0 of 2 as valid. -/
def exMaskFirst : Tensor2 := ⟨1, 2, fun _ j => if j = 0 then 1 else 0⟩

/-- The transposition of positions 0 and 1 (as a function on ℕ). -/
def swap01 : ℕ → ℕ := fun i => 1 - i

/-- A 1-dimensional, 1-head MAB with all-zero weights and residual=False. -/
def exMABres0 : MABParams := mkMAB 1 1 1 1 false none false zeroW

/-- A 4-dimensional, 2-head MAB with all-zero weights. -/
def exMABh2 : MABParams := mkMAB 1 1 4 2 false none true zeroW

/-- A 1-dimensional aPMA built from all-zero weights. -/
def exAPMA : APMAParams :=
  mkAPMA 1 1 1 false none true (fun _ => 0) (fun _ _ => 0) zeroW zeroW

/-- A two-block stacked SAB over 1-dimensional all-zero-weight blocks. -/
def exStackedSAB : List MABParams := mkStackedSAB 1 1 2 1 false none true zeroW zeroW

theorem Tensor3.ext3 {A B : Tensor3} (h0 : A.n0 = B.n0) (h1 : A.n1 = B.n1)
    (h2 : A.n2 = B.n2) (hv : ∀ b i j, A.val b i j = B.val b i j) : A = B := by
  cases A; cases B; simp_all; funext b i j; exact hv b i j

theorem permuteRows_n0 (σ : ℕ → ℕ) (A : Tensor3) : (permuteRows σ A).n0 = A.n0 := rfl

theorem permuteRows_n1 (σ : ℕ → ℕ) (A : Tensor3) : (permuteRows σ A).n1 = A.n1 := rfl

theorem permuteRows_n2 (σ : ℕ → ℕ) (A : Tensor3) : (permuteRows σ A).n2 = A.n2 := rfl

theorem linearLast_perm (f : LinearP) (d : ℕ) (σ : ℕ → ℕ) (X : Tensor3) :
    linearLast f d (permuteRows σ X) = permuteRows σ (linearLast f d X) := rfl

theorem splitHeads_perm (σ : ℕ → ℕ) (A : Tensor3) (nh : ℕ) :
    (permuteRows σ A).splitHeads nh = permuteRows σ (A.splitHeads nh) := rfl

theorem bmm_perm_left (σ : ℕ → ℕ) (A B : Tensor3) :
    (permuteRows σ A).bmm B = permuteRows σ (A.bmm B) := rfl

theorem add_perm (σ : ℕ → ℕ) (A B : Tensor3) :
    (permuteRows σ A).add (permuteRows σ B) = permuteRows σ (A.add B) := rfl

theorem relu_perm (σ : ℕ → ℕ) (A : Tensor3) :
    (permuteRows σ A).relu = permuteRows σ A.relu := rfl

theorem mergeHeads_perm (σ : ℕ → ℕ) (A : Tensor3) (nh : ℕ) :
    (permuteRows σ A).mergeHeads nh = permuteRows σ (A.mergeHeads nh) := rfl

theorem ln1App_perm (P : MABParams) (σ : ℕ → ℕ) (T : Tensor3) :
    ln1App P (permuteRows σ T) = permuteRows σ (ln1App P T) := by
  unfold ln1App
  by_cases h : P.lnFlag
  · simp [h]
    rfl
  · simp [h]

theorem ln2App_perm (P : MABParams) (σ : ℕ → ℕ) (T : Tensor3) :
    ln2App P (permuteRows σ T) = permuteRows σ (ln2App P T) := by
  unfold ln2App
  by_cases h : P.lnFlag
  · simp [h]
    rfl
  · simp [h]

theorem mabQ_perm (P : MABParams) (σ : ℕ → ℕ) (X : Tensor3) :
    mabQ P (permuteRows σ X) = permuteRows σ (mabQ P X) := rfl

theorem mabLogits_query_perm (P : MABParams) (σ : ℕ → ℕ) (X Y : Tensor3) :
    mabLogits P (permuteRows σ X) Y = permuteRows σ (mabLogits P X Y) := rfl

theorem plainSoftmax_perm (σ : ℕ → ℕ) (L : Tensor3) :
    plainSoftmax (permuteRows σ L) = permuteRows σ (plainSoftmax L) := rfl

theorem maskedSoftmaxZ_perm (σ : ℕ → ℕ) (nh nx : ℕ) (m : Tensor2) (L : Tensor3) :
    maskedSoftmaxZ (maskHeads nh (maskStack nx m)) (permuteRows σ L) =
      permuteRows σ (maskedSoftmaxZ (maskHeads nh (maskStack nx m)) L) := rfl

theorem mabA_query_perm (P : MABParams) (σ : ℕ → ℕ) (X Y : Tensor3)
    (mask : Option Tensor2) :
    mabA P (permuteRows σ X) Y mask = permuteRows σ (mabA P X Y mask) := by
  cases mask with
  | none =>
      show plainSoftmax (mabLogits P (permuteRows σ X) Y) = _
      rw [mabLogits_query_perm, plainSoftmax_perm]
      rfl
  | some m =>
      show maskedSoftmaxZ (maskHeads P.num_heads (maskStack (mabQ P (permuteRows σ X)).n1 m))
            (mabLogits P (permuteRows σ X) Y) = _
      rw [mabQ_perm, permuteRows_n1, mabLogits_query_perm, maskedSoftmaxZ_perm]
      rfl

theorem mabAttn_query_perm (P : MABParams) (σ : ℕ → ℕ) (X Y : Tensor3)
    (mask : Option Tensor2) :
    mabAttn P (permuteRows σ X) Y mask = permuteRows σ (mabAttn P X Y mask) := by
  unfold mabAttn
  rw [mabA_query_perm, bmm_perm_left, mergeHeads_perm]

theorem mabO1_query_perm (P : MABParams) (σ : ℕ → ℕ) (X Y : Tensor3)
    (mask : Option Tensor2) :
    mabO1 P (permuteRows σ X) Y mask = permuteRows σ (mabO1 P X Y mask) := by
  unfold mabO1
  by_cases h : P.residual <;>
    simp only [h, if_true, if_false, Bool.false_eq_true] <;>
    rw [mabAttn_query_perm]
  · rw [mabQ_perm, add_perm, ln1App_perm]
  · rw [ln1App_perm]

theorem mab_query_perm (P : MABParams) (σ : ℕ → ℕ) (X Y : Tensor3)
    (mask : Option Tensor2) :
    mabForward P (permuteRows σ X) Y mask = permuteRows σ (mabForward P X Y mask) := by
  unfold mabForward
  rw [mabO1_query_perm, linearLast_perm, relu_perm, add_perm, ln2App_perm]

theorem sum_range_perm (σ : Equiv.Perm ℕ) {n : ℕ} (hσ : ∀ t, t < n ↔ σ t < n)
    (f : ℕ → ℝ) :
    ∑ t in Finset.range n, f (σ t) = ∑ t in Finset.range n, f t :=
  Finset.sum_equiv σ (fun i => by simpa using hσ i) (fun i _ => rfl)

theorem softmaxNum_perm (σ : Equiv.Perm ℕ) {n : ℕ} (hσ : ∀ t, t < n ↔ σ t < n)
    (row : ℕ → RVal) (j : ℕ) :
    softmaxNum n (fun t => row (σ t)) j = softmaxNum n row (σ j) := by
  unfold softmaxNum
  rw [sum_range_perm σ hσ (fun t => expv (row t))]

theorem mabK_perm (P : MABParams) (σ : ℕ → ℕ) (Y : Tensor3) :
    mabK P (permuteRows σ Y) = permuteRows σ (mabK P Y) := rfl

theorem mabV_perm (P : MABParams) (σ : ℕ → ℕ) (Y : Tensor3) :
    mabV P (permuteRows σ Y) = permuteRows σ (mabV P Y) := rfl

theorem mabLogits_key_perm (P : MABParams) (σ : ℕ → ℕ) (X Y : Tensor3) :
    mabLogits P X (permuteRows σ Y) = permuteCols3 σ (mabLogits P X Y) := rfl

theorem mabA_n2 (P : MABParams) (X Y : Tensor3) (mask : Option Tensor2) :
    (mabA P X Y mask).n2 = Y.n1 := by
  cases mask <;> rfl

theorem plainSoftmax_permCols (σ : Equiv.Perm ℕ) (L : Tensor3)
    (hσ : ∀ t, t < L.n2 ↔ σ t < L.n2) :
    plainSoftmax (permuteCols3 (⇑σ) L) = permuteCols3 (⇑σ) (plainSoftmax L) := by
  refine Tensor3.ext3 rfl rfl rfl ?_
  intro a i j
  show Real.exp (L.val a i (σ j)) / ∑ t in Finset.range L.n2, Real.exp (L.val a i (σ t)) = _
  rw [sum_range_perm σ hσ (fun t => Real.exp (L.val a i t))]
  rfl

theorem maskedSoftmaxZ_permCols (σ : Equiv.Perm ℕ) (nh nx : ℕ) (m : Tensor2)
    (L : Tensor3) (hσ : ∀ t, t < L.n2 ↔ σ t < L.n2) :
    maskedSoftmaxZ (maskHeads nh (maskStack nx (permuteCols2 (⇑σ) m)))
        (permuteCols3 (⇑σ) L) =
      permuteCols3 (⇑σ) (maskedSoftmaxZ (maskHeads nh (maskStack nx m)) L) := by
  refine Tensor3.ext3 rfl rfl rfl ?_
  intro a i j
  show nanToZero (softmaxNum L.n2
      (fun t => maskedLogit (maskHeads nh (maskStack nx m)) L a i (σ t)) j) = _
  rw [softmaxNum_perm σ hσ]
  rfl

theorem mabA_key_perm (P : MABParams) (X Y : Tensor3) (mask : Option Tensor2)
    (σ : Equiv.Perm ℕ) (hσ : ∀ t, t < Y.n1 ↔ σ t < Y.n1) :
    mabA P X (permuteRows (⇑σ) Y) (mask.map (permuteCols2 (⇑σ))) =
      permuteCols3 (⇑σ) (mabA P X Y mask) := by
  cases mask with
  | none =>
      show plainSoftmax (mabLogits P X (permuteRows (⇑σ) Y)) = _
      rw [mabLogits_key_perm]
      exact plainSoftmax_permCols σ (mabLogits P X Y) hσ
  | some m =>
      show maskedSoftmaxZ
          (maskHeads P.num_heads (maskStack (mabQ P X).n1 (permuteCols2 (⇑σ) m)))
          (mabLogits P X (permuteRows (⇑σ) Y)) = _
      rw [mabLogits_key_perm]
      exact maskedSoftmaxZ_permCols σ P.num_heads (mabQ P X).n1 m (mabLogits P X Y) hσ

theorem bmm_permCols_permRows (σ : Equiv.Perm ℕ) (A B : Tensor3)
    (hσ : ∀ t, t < A.n2 ↔ σ t < A.n2) :
    (permuteCols3 (⇑σ) A).bmm (permuteRows (⇑σ) B) = A.bmm B := by
  refine Tensor3.ext3 rfl rfl rfl ?_
  intro a i j
  show ∑ t in Finset.range A.n2, A.val a i (σ t) * B.val a (σ t) j = _
  rw [sum_range_perm σ hσ (fun t => A.val a i t * B.val a t j)]
  rfl

theorem mabAttn_key_perm (P : MABParams) (X Y : Tensor3) (mask : Option Tensor2)
    (σ : Equiv.Perm ℕ) (hσ : ∀ t, t < Y.n1 ↔ σ t < Y.n1) :
    mabAttn P X (permuteRows (⇑σ) Y) (mask.map (permuteCols2 (⇑σ))) =
      mabAttn P X Y mask := by
  unfold mabAttn
  rw [mabA_key_perm P X Y mask σ hσ, mabV_perm, splitHeads_perm,
    bmm_permCols_permRows σ _ _ (by rw [mabA_n2]; exact hσ)]

theorem mab_key_perm (P : MABParams) (X Y : Tensor3) (mask : Option Tensor2)
    (σ : Equiv.Perm ℕ) (hσ : ∀ t, t < Y.n1 ↔ σ t < Y.n1) :
    mabForward P X (permuteRows (⇑σ) Y) (mask.map (permuteCols2 (⇑σ))) =
      mabForward P X Y mask := by
  unfold mabForward mabO1
  rw [mabAttn_key_perm P X Y mask σ hσ]

theorem ln1App_n0 (P : MABParams) (T : Tensor3) : (ln1App P T).n0 = T.n0 := by
  unfold ln1App; split <;> rfl

theorem ln1App_n1 (P : MABParams) (T : Tensor3) : (ln1App P T).n1 = T.n1 := by
  unfold ln1App; split <;> rfl

theorem ln1App_n2 (P : MABParams) (T : Tensor3) : (ln1App P T).n2 = T.n2 := by
  unfold ln1App; split <;> rfl

theorem ln2App_n0 (P : MABParams) (T : Tensor3) : (ln2App P T).n0 = T.n0 := by
  unfold ln2App; split <;> rfl

theorem ln2App_n1 (P : MABParams) (T : Tensor3) : (ln2App P T).n1 = T.n1 := by
  unfold ln2App; split <;> rfl

theorem ln2App_n2 (P : MABParams) (T : Tensor3) : (ln2App P T).n2 = T.n2 := by
  unfold ln2App; split <;> rfl

theorem mabAttn_n1 (P : MABParams) (X Y : Tensor3) (mask : Option Tensor2) :
    (mabAttn P X Y mask).n1 = X.n1 := by
  cases mask <;> rfl

theorem mabAttn_n0 (P : MABParams) (X Y : Tensor3) (mask : Option Tensor2) :
    (mabAttn P X Y mask).n0 = P.num_heads * X.n0 / P.num_heads := by
  cases mask <;> rfl

theorem mabAttn_n2 (P : MABParams) (X Y : Tensor3) (mask : Option Tensor2) :
    (mabAttn P X Y mask).n2 = P.num_heads * (P.dim / P.num_heads) := by
  cases mask <;> rfl

theorem mabO1_n1 (P : MABParams) (X Y : Tensor3) (mask : Option Tensor2) :
    (mabO1 P X Y mask).n1 = X.n1 := by
  unfold mabO1
  split
  · rw [ln1App_n1]; rfl
  · rw [ln1App_n1]; exact mabAttn_n1 P X Y mask

theorem mabForward_n1 (P : MABParams) (X Y : Tensor3) (mask : Option Tensor2) :
    (mabForward P X Y mask).n1 = X.n1 := by
  unfold mabForward
  rw [ln2App_n1]
  show (mabO1 P X Y mask).n1 = X.n1
  exact mabO1_n1 P X Y mask

theorem mabO1_n0 (P : MABParams) (X Y : Tensor3) (mask : Option Tensor2)
    (h : P.residual = true ∨ 0 < P.num_heads) :
    (mabO1 P X Y mask).n0 = X.n0 := by
  unfold mabO1
  split
  · rw [ln1App_n0]; rfl
  · rename_i hres
    rcases h with h | h
    · exact absurd h hres
    · rw [ln1App_n0, mabAttn_n0]
      exact Nat.mul_div_cancel_left X.n0 h

theorem mabForward_n0 (P : MABParams) (X Y : Tensor3) (mask : Option Tensor2)
    (h : P.residual = true ∨ 0 < P.num_heads) :
    (mabForward P X Y mask).n0 = X.n0 := by
  unfold mabForward
  rw [ln2App_n0]
  show (mabO1 P X Y mask).n0 = X.n0
  exact mabO1_n0 P X Y mask h

theorem mabO1_n2 (P : MABParams) (X Y : Tensor3) (mask : Option Tensor2)
    (h : P.residual = true ∨ (0 < P.num_heads ∧ P.num_heads ∣ P.dim)) :
    (mabO1 P X Y mask).n2 = P.dim := by
  unfold mabO1
  split
  · rw [ln1App_n2]; rfl
  · rename_i hres
    rcases h with h | h
    · exact absurd h hres
    · rw [ln1App_n2, mabAttn_n2]
      exact Nat.mul_div_cancel' h.2

theorem mabForward_n2 (P : MABParams) (X Y : Tensor3) (mask : Option Tensor2)
    (h : P.residual = true ∨ (0 < P.num_heads ∧ P.num_heads ∣ P.dim)) :
    (mabForward P X Y mask).n2 = P.dim := by
  unfold mabForward
  rw [ln2App_n2]
  show (mabO1 P X Y mask).n2 = P.dim
  exact mabO1_n2 P X Y mask h

theorem sab_n1 (P : MABParams) (X : Tensor3) (mask : Option Tensor2) :
    (sabForward P X mask).n1 = X.n1 :=
  mabForward_n1 P X X mask

theorem pma_perm (P : PMAParams) (X : Tensor3) (mask : Option Tensor2)
    (σ : Equiv.Perm ℕ) (hσ : ∀ t, t < X.n1 ↔ σ t < X.n1) :
    pmaForward P (permuteRows (⇑σ) X) (mask.map (permuteCols2 (⇑σ))) =
      pmaForward P X mask :=
  mab_key_perm P.mab ⟨X.n0, P.num_inds, P.dim, fun _ i j => P.seedI i j⟩ X mask σ hσ

theorem apma_perm (P : APMAParams) (X : Tensor3) (k : ℕ)
    (σ : Equiv.Perm ℕ) (hσ : ∀ t, t < X.n1 ↔ σ t < X.n1) :
    apmaForward P (permuteRows (⇑σ) X) k = apmaForward P X k :=
  mab_key_perm P.mab ((apmaGrow P k).repeat0 X.n0) X none σ hσ

theorem isab_perm (P : ISABParams) (X : Tensor3) (mask : Option Tensor2)
    (σ : Equiv.Perm ℕ) (hσ : ∀ t, t < X.n1 ↔ σ t < X.n1) :
    isabForward P (permuteRows (⇑σ) X) (mask.map (permuteCols2 (⇑σ))) =
      permuteRows (⇑σ) (isabForward P X mask) := by
  unfold isabForward
  rw [pma_perm P.pma X mask σ hσ]
  exact mab_query_perm P.mab (⇑σ) X (pmaForward P.pma X mask) none

theorem sab_perm (P : MABParams) (X : Tensor3) (mask : Option Tensor2)
    (σ : Equiv.Perm ℕ) (hσ : ∀ t, t < X.n1 ↔ σ t < X.n1) :
    sabForward P (permuteRows (⇑σ) X) (mask.map (permuteCols2 (⇑σ))) =
      permuteRows (⇑σ) (sabForward P X mask) := by
  unfold sabForward
  rw [mab_key_perm P (permuteRows (⇑σ) X) X mask σ hσ]
  exact mab_query_perm P (⇑σ) X X mask

theorem stackedSAB_perm (blocks : List MABParams) (mask : Option Tensor2)
    (σ : Equiv.Perm ℕ) :
    ∀ X : Tensor3, (∀ t, t < X.n1 ↔ σ t < X.n1) →
      stackedSABForward blocks (permuteRows (⇑σ) X) (mask.map (permuteCols2 (⇑σ))) =
        permuteRows (⇑σ) (stackedSABForward blocks X mask) := by
  induction blocks with
  | nil => intro X hσ; rfl
  | cons P rest ih =>
      intro X hσ
      show stackedSABForward rest
          (sabForward P (permuteRows (⇑σ) X) (mask.map (permuteCols2 (⇑σ))))
          (mask.map (permuteCols2 (⇑σ))) = _
      rw [sab_perm P X mask σ hσ]
      exact ih (sabForward P X mask) (fun t => by rw [sab_n1]; exact hσ t)

theorem exPMA_eval (Z : Tensor3) (b i j : ℕ) :
    (pmaForward exPMA Z none).val b i j = 0 := by
  simp [pmaForward, mabForward, mabO1, mabAttn, mabA, plainSoftmax, mabLogits, mabQ,
    mabK, mabV, linearLast, ln1App, ln2App, Tensor3.add, Tensor3.relu, Tensor3.bmm,
    Tensor3.mergeHeads, Tensor3.splitHeads, Tensor3.transpose12, Tensor3.divScalar,
    exPMA, exMABzero, mkPMA, mkMAB, zeroW, zeroLin]

theorem exOuter_eval (Z H : Tensor3) (hH : ∀ b i j, H.val b i j = 0)
    (hZ2 : Z.n2 = 1) (hH2 : H.n2 = 1) (b i c : ℕ) :
    (mabForward exMABouter Z H none).val b i c = Z.val b i 0 := by
  simp [mabForward, mabO1, mabAttn, mabA, plainSoftmax, mabLogits, mabQ,
    mabK, mabV, linearLast, ln1App, ln2App, Tensor3.add, Tensor3.relu, Tensor3.bmm,
    Tensor3.mergeHeads, Tensor3.splitHeads, Tensor3.transpose12, Tensor3.divScalar,
    exMABouter, mkMAB, exW1, idLin, zeroLin, hH, hZ2, hH2, Finset.sum_range_one]

/-- C1 counterexample: for a concrete ISAB, a concrete input batch (one set
with elements 0 and 1) and the transposition of the two set elements, the
ISAB output changes (its first row becomes the second input element), so
ISAB.forward is not left unchanged by permuting the set. -/
theorem claim1_counterexample :
    isabForward exISAB (permuteRows swap01 exX) none ≠ isabForward exISAB exX none := by
  intro h
  have h0 : (isabForward exISAB (permuteRows swap01 exX) none).val 0 0 0 =
      (isabForward exISAB exX none).val 0 0 0 := by rw [h]
  have hL : (isabForward exISAB (permuteRows swap01 exX) none).val 0 0 0 = 1 := by
    show (mabForward exMABouter (permuteRows swap01 exX)
        (pmaForward exPMA (permuteRows swap01 exX) none) none).val 0 0 0 = 1
    rw [exOuter_eval _ _ (fun b i j => exPMA_eval _ b i j) rfl rfl]
    simp [permuteRows, swap01, exX]
  have hR : (isabForward exISAB exX none).val 0 0 0 = 0 := by
    show (mabForward exMABouter exX (pmaForward exPMA exX none) none).val 0 0 0 = 0
    rw [exOuter_eval _ _ (fun b i j => exPMA_eval _ b i j) rfl rfl]
    simp [exX]
  rw [hL, hR] at h0
  exact one_ne_zero h0

/-- C1 (amended): with dropout disabled, permuting the elements of each set
along the n axis (and the mask identically) leaves the outputs of
PMA.forward and aPMA.forward unchanged; ISAB.forward is permutation
EQUIVARIANT, not invariant: its output on the permuted input is the
permutation applied to the output rows on the original input. -/
theorem claim1_pooling_permutation :
    (∀ (P : PMAParams) (X : Tensor3) (mask : Option Tensor2) (σ : Equiv.Perm ℕ),
      P.mab.p = none → (∀ t, t < X.n1 ↔ σ t < X.n1) →
      pmaForward P (permuteRows (⇑σ) X) (mask.map (permuteCols2 (⇑σ))) =
        pmaForward P X mask)
  ∧ (∀ (P : APMAParams) (X : Tensor3) (k : ℕ) (σ : Equiv.Perm ℕ),
      P.mab.p = none → (∀ t, t < X.n1 ↔ σ t < X.n1) →
      apmaForward P (permuteRows (⇑σ) X) k = apmaForward P X k)
  ∧ (∀ (P : ISABParams) (X : Tensor3) (mask : Option Tensor2) (σ : Equiv.Perm ℕ),
      P.mab.p = none → P.pma.mab.p = none → (∀ t, t < X.n1 ↔ σ t < X.n1) →
      isabForward P (permuteRows (⇑σ) X) (mask.map (permuteCols2 (⇑σ))) =
        permuteRows (⇑σ) (isabForward P X mask)) :=
  ⟨fun P X mask σ _ hσ => pma_perm P X mask σ hσ,
   fun P X k σ _ hσ => apma_perm P X k σ hσ,
   fun P X mask σ _ _ hσ => isab_perm P X mask σ hσ⟩

/-- C1 witness: the amended theorem applied at concrete modules, a concrete
input and the identity permutation, with every hypothesis discharged. -/
theorem claim1_witness :
    (exPMA.mab.p = none ∧ (∀ t, t < exX.n1 ↔ (Equiv.refl ℕ) t < exX.n1) ∧
      pmaForward exPMA (permuteRows (⇑(Equiv.refl ℕ)) exX)
          ((none : Option Tensor2).map (permuteCols2 (⇑(Equiv.refl ℕ)))) =
        pmaForward exPMA exX none)
  ∧ (exAPMA.mab.p = none ∧
      apmaForward exAPMA (permuteRows (⇑(Equiv.refl ℕ)) exX) 2 =
        apmaForward exAPMA exX 2)
  ∧ (exISAB.mab.p = none ∧ exISAB.pma.mab.p = none ∧
      isabForward exISAB (permuteRows (⇑(Equiv.refl ℕ)) exX)
          ((none : Option Tensor2).map (permuteCols2 (⇑(Equiv.refl ℕ)))) =
        permuteRows (⇑(Equiv.refl ℕ)) (isabForward exISAB exX none)) :=
  ⟨⟨rfl, fun _ => Iff.rfl,
    claim1_pooling_permutation.1 exPMA exX none (Equiv.refl ℕ) rfl (fun _ => Iff.rfl)⟩,
   ⟨rfl,
    claim1_pooling_permutation.2.1 exAPMA exX 2 (Equiv.refl ℕ) rfl (fun _ => Iff.rfl)⟩,
   ⟨rfl, rfl,
    claim1_pooling_permutation.2.2 exISAB exX none (Equiv.refl ℕ) rfl rfl
      (fun _ => Iff.rfl)⟩⟩

/-- C5: with dropout disabled, permuting the input of SAB.forward or
StackedSAB.forward along the set axis (and the mask identically) permutes
the output identically along the same axis, with unchanged values. -/
theorem claim5_self_attention_equivariance :
    (∀ (P : MABParams) (X : Tensor3) (mask : Option Tensor2) (σ : Equiv.Perm ℕ),
      P.p = none → (∀ t, t < X.n1 ↔ σ t < X.n1) →
      sabForward P (permuteRows (⇑σ) X) (mask.map (permuteCols2 (⇑σ))) =
        permuteRows (⇑σ) (sabForward P X mask))
  ∧ (∀ (blocks : List MABParams) (X : Tensor3) (mask : Option Tensor2) (σ : Equiv.Perm ℕ),
      (∀ Q ∈ blocks, Q.p = none) → (∀ t, t < X.n1 ↔ σ t < X.n1) →
      stackedSABForward blocks (permuteRows (⇑σ) X) (mask.map (permuteCols2 (⇑σ))) =
        permuteRows (⇑σ) (stackedSABForward blocks X mask)) :=
  ⟨fun P X mask σ _ hσ => sab_perm P X mask σ hσ,
   fun blocks X mask σ _ hσ => stackedSAB_perm blocks mask σ X hσ⟩

/-- C5 witness: the theorem applied to a concrete SAB and a concrete
two-block StackedSAB at a concrete input and the identity permutation. -/
theorem claim5_witness :
    (exMABouter.p = none ∧ (∀ t, t < exX.n1 ↔ (Equiv.refl ℕ) t < exX.n1) ∧
      sabForward exMABouter (permuteRows (⇑(Equiv.refl ℕ)) exX)
          ((none : Option Tensor2).map (permuteCols2 (⇑(Equiv.refl ℕ)))) =
        permuteRows (⇑(Equiv.refl ℕ)) (sabForward exMABouter exX none))
  ∧ ((∀ Q ∈ exStackedSAB, Q.p = none) ∧
      stackedSABForward exStackedSAB (permuteRows (⇑(Equiv.refl ℕ)) exX)
          ((none : Option Tensor2).map (permuteCols2 (⇑(Equiv.refl ℕ)))) =
        permuteRows (⇑(Equiv.refl ℕ)) (stackedSABForward exStackedSAB exX none)) := by
  have hmem : ∀ Q ∈ exStackedSAB, Q.p = none := by
    intro Q hQ
    simp only [exStackedSAB, mkStackedSAB, mkSAB, mkMAB, List.replicate,
      List.mem_cons, List.not_mem_nil, or_false] at hQ
    rcases hQ with rfl | rfl <;> rfl
  exact ⟨⟨rfl, fun _ => Iff.rfl,
      claim5_self_attention_equivariance.1 exMABouter exX none (Equiv.refl ℕ) rfl
        (fun _ => Iff.rfl)⟩,
    ⟨hmem,
      claim5_self_attention_equivariance.2 exStackedSAB exX none (Equiv.refl ℕ) hmem
        (fun _ => Iff.rfl)⟩⟩

theorem softmax_allmask_nan (P : MABParams) (X Y : Tensor3) (m : Tensor2) (a i : ℕ)
    (hrow : ∀ t, t < Y.n1 → m.val (a % m.n0) t = 0) (j : ℕ) :
    softmaxNum (mabLogits P X Y).n2
      (maskedLogit (maskHeads P.num_heads (maskStack (mabQ P X).n1 m))
        (mabLogits P X Y) a i) j = RVal.nan := by
  have hs : ∑ t in Finset.range (mabLogits P X Y).n2,
      expv (maskedLogit (maskHeads P.num_heads (maskStack (mabQ P X).n1 m))
        (mabLogits P X Y) a i t) = 0 := by
    apply Finset.sum_eq_zero
    intro t ht
    rw [Finset.mem_range] at ht
    have ht2 : t < Y.n1 := ht
    show expv (if m.val (a % m.n0) t = 0 then RVal.ninf
        else RVal.fin ((mabLogits P X Y).val a i t)) = 0
    rw [hrow t ht2, if_pos rfl]
    rfl
  unfold softmaxNum
  rw [if_pos hs]

theorem mabA_allmask_zero (P : MABParams) (X Y : Tensor3) (m : Tensor2) (a i : ℕ)
    (hrow : ∀ t, t < Y.n1 → m.val (a % m.n0) t = 0) (j : ℕ) :
    (mabA P X Y (some m)).val a i j = 0 := by
  show nanToZero (softmaxNum (mabLogits P X Y).n2
      (maskedLogit (maskHeads P.num_heads (maskStack (mabQ P X).n1 m))
        (mabLogits P X Y) a i) j) = 0
  rw [softmax_allmask_nan P X Y m a i hrow j]
  rfl

/-- C2 (amended): if batch element b's mask row is entirely zero, the
softmax emits an all-NaN row for every head of that batch element, the
NaN-fill turns the attention weights into exactly zero, and the aggregated
attention rows `attn` for that batch element are exactly zero.  (The final
output row of MAB.forward is NOT zero: the residual and output-projection
path is still applied on top of the zero attention, see the
counterexample.) -/
theorem claim2_allmasked_attention_zero (P : MABParams) (X Y : Tensor3) (m : Tensor2)
    (b : ℕ) (hb : b < X.n0) (hm0 : m.n0 = X.n0) (hnh : 0 < P.num_heads)
    (hall : ∀ t, t < Y.n1 → m.val b t = 0) :
    (∀ h i j, softmaxNum (mabLogits P X Y).n2
        (maskedLogit (maskHeads P.num_heads (maskStack (mabQ P X).n1 m))
          (mabLogits P X Y) (h * X.n0 + b) i) j = RVal.nan)
  ∧ (∀ h i j, (mabA P X Y (some m)).val (h * X.n0 + b) i j = 0)
  ∧ (∀ i c, (mabAttn P X Y (some m)).val b i c = 0) := by
  have hrow : ∀ h : ℕ, ∀ t, t < Y.n1 → m.val ((h * X.n0 + b) % m.n0) t = 0 := by
    intro h t ht
    have : (h * X.n0 + b) % m.n0 = b := by
      rw [hm0, add_comm, Nat.add_mul_mod_self_right, Nat.mod_eq_of_lt hb]
    rw [this]
    exact hall t ht
  refine ⟨fun h i j => softmax_allmask_nan P X Y m _ i (hrow h) j,
    fun h i j => mabA_allmask_zero P X Y m _ i (hrow h) j, ?_⟩
  intro i c
  show ∑ u in Finset.range (mabA P X Y (some m)).n2,
      (mabA P X Y (some m)).val
        ((c / (P.dim / P.num_heads)) * ((P.num_heads * X.n0) / P.num_heads) + b) i u *
      ((mabV P Y).splitHeads P.num_heads).val
        ((c / (P.dim / P.num_heads)) * ((P.num_heads * X.n0) / P.num_heads) + b) u
        (c % (P.dim / P.num_heads)) = 0
  rw [Nat.mul_div_cancel_left X.n0 hnh]
  apply Finset.sum_eq_zero
  intro u hu
  rw [mabA_allmask_zero P X Y m _ i (hrow (c / (P.dim / P.num_heads))) u, zero_mul]

/-- C2 witness: the theorem applied to a concrete MAB, input and all-zero
mask, with every hypothesis discharged. -/
theorem claim2_witness :
    ((0:ℕ) < exY1.n0 ∧ exMask0.n0 = exY1.n0 ∧ 0 < exMABouter.num_heads ∧
      (∀ t, t < exY1.n1 → exMask0.val 0 t = 0))
  ∧ ((∀ h i j, (mabA exMABouter exY1 exY1 (some exMask0)).val (h * exY1.n0 + 0) i j = 0)
      ∧ (∀ i c, (mabAttn exMABouter exY1 exY1 (some exMask0)).val 0 i c = 0)) :=
  ⟨⟨by decide, rfl, by decide, fun t _ => rfl⟩,
   (claim2_allmasked_attention_zero exMABouter exY1 exY1 exMask0 0 (by decide) rfl
      (by decide) (fun t _ => rfl)).2⟩

/-- C2 counterexample: for a concrete MAB (residual=True, identity query
projection) called on an input of value 1 with an all-zero mask, the output
entry of the fully-masked batch element is 1, not 0: the claimed "output row
is exactly zero" fails (only the attention row is zeroed). -/
theorem claim2_counterexample :
    (mabForward exMABouter exY1 exY1 (some exMask0)).val 0 0 0 ≠ 0 := by
  have hv : (mabForward exMABouter exY1 exY1 (some exMask0)).val 0 0 0 = 1 := by
    simp [mabForward, mabO1, mabAttn, mabA, maskedSoftmaxZ, softmaxNum, maskedLogit,
      maskHeads, maskStack, nanToZero, expv, mabLogits, mabQ, mabK, mabV, linearLast,
      ln1App, ln2App, Tensor3.add, Tensor3.relu, Tensor3.bmm, Tensor3.mergeHeads,
      Tensor3.splitHeads, Tensor3.transpose12, Tensor3.divScalar, exMABouter, mkMAB,
      exW1, idLin, zeroLin, exY1, exMask0, Finset.sum_range_one]
  rw [hv]
  exact one_ne_zero

/-- C3 (amended): MAB construction performs no divisibility validation at
all: for every configuration, divisible or not, `__init__` succeeds and
returns the assembled module state; no error is raised at construction
time. -/
theorem claim3_construction_never_fails (dX dY dim nh : ℕ) (lnF : Bool)
    (p : Option ℝ) (res : Bool) (W : MABWeights) :
    mabInit dX dY dim nh lnF p res W = Except.ok (mkMAB dX dY dim nh lnF p res W)
  ∧ (mabInit dX dY dim nh lnF p res W).isOk = true :=
  ⟨rfl, rfl⟩

/-- C3 counterexample: dim = 6 is not divisible by num_heads = 4, yet
constructing the MAB succeeds (returns the module state, raises nothing),
refuting "raises an error immediately at module construction time". -/
theorem claim3_counterexample :
    6 % 4 ≠ 0 ∧
      mabInit 1 1 6 4 false none true zeroW =
        Except.ok (mkMAB 1 1 6 4 false none true zeroW) :=
  ⟨by decide, rfl⟩

/-- C6: with residual=True the first combination step is
`Norm1(Q + Dropout(attn))` with the full unsplit projected Q as residual
base; with residual=False it is `Norm1(Dropout(attn))`; in BOTH branches the
second step is `Norm2(O1 + Dropout(ReLU(Linear_O(O1))))`; and the residual
base really is Q, not the raw input X: on a concrete instance the two
differ. -/
theorem claim6_residual_structure :
    (∀ (P : MABParams) (X Y : Tensor3) (mask : Option Tensor2), P.residual = true →
      mabO1 P X Y mask = ln1App P ((mabQ P X).add (mabAttn P X Y mask)))
  ∧ (∀ (P : MABParams) (X Y : Tensor3) (mask : Option Tensor2), P.residual = false →
      mabO1 P X Y mask = ln1App P (mabAttn P X Y mask))
  ∧ (∀ (P : MABParams) (X Y : Tensor3) (mask : Option Tensor2),
      mabForward P X Y mask =
        ln2App P ((mabO1 P X Y mask).add
          (linearLast P.fc_o P.dim (mabO1 P X Y mask)).relu))
  ∧ mabO1 exMABc6 exY1 exY1 none ≠ mabO1rawX exMABc6 exY1 exY1 none := by
  refine ⟨fun P X Y mask h => by simp [mabO1, h],
    fun P X Y mask h => by simp [mabO1, h],
    fun P X Y mask => rfl, ?_⟩
  intro h
  have h0 : (mabO1 exMABc6 exY1 exY1 none).val 0 0 0 =
      (mabO1rawX exMABc6 exY1 exY1 none).val 0 0 0 := by rw [h]
  have hQ : (mabO1 exMABc6 exY1 exY1 none).val 0 0 0 = 2 := by
    simp [mabO1, mabAttn, mabA, plainSoftmax, mabLogits, mabQ, mabK, mabV,
      linearLast, ln1App, Tensor3.add, Tensor3.bmm, Tensor3.mergeHeads,
      Tensor3.splitHeads, Tensor3.transpose12, Tensor3.divScalar, exMABc6, mkMAB,
      exW2, twoLin, idLin, zeroLin, exY1, Finset.sum_range_one]
  have hX : (mabO1rawX exMABc6 exY1 exY1 none).val 0 0 0 = 1 := by
    simp [mabO1rawX, mabAttn, mabA, plainSoftmax, mabLogits, mabQ, mabK, mabV,
      linearLast, ln1App, Tensor3.add, Tensor3.bmm, Tensor3.mergeHeads,
      Tensor3.splitHeads, Tensor3.transpose12, Tensor3.divScalar, exMABc6, mkMAB,
      exW2, twoLin, idLin, zeroLin, exY1, Finset.sum_range_one]
  rw [hQ, hX] at h0
  norm_num at h0

/-- C6 witness: both residual branches of the theorem applied at concrete
modules (residual=True and residual=False), discharging the branch
hypotheses. -/
theorem claim6_witness :
    (exMABc6.residual = true ∧
      mabO1 exMABc6 exY1 exY1 none =
        ln1App exMABc6 ((mabQ exMABc6 exY1).add (mabAttn exMABc6 exY1 exY1 none)))
  ∧ (exMABres0.residual = false ∧
      mabO1 exMABres0 exY1 exY1 none =
        ln1App exMABres0 (mabAttn exMABres0 exY1 exY1 none)) :=
  ⟨⟨rfl, claim6_residual_structure.1 exMABc6 exY1 exY1 none rfl⟩,
   ⟨rfl, claim6_residual_structure.2.1 exMABres0 exY1 exY1 none rfl⟩⟩

/-- C7: the unnormalised attention logits are the per-head products
`Q_head @ K_head^T` (a sum over the per-head width dim/num_heads) divided by
`sqrt(dim)` with `dim` the full unsplit projection width (the last extent of
the unsplit Q), of shape [batch*num_heads, nx, ny]; and for more than one
head the per-head width is strictly smaller than dim, so the scale is not
the per-head dimension's square root argument. -/
theorem claim7_logits_scale (P : MABParams) (X Y : Tensor3) :
    (mabLogits P X Y).n0 = X.n0 * P.num_heads
  ∧ (mabLogits P X Y).n1 = X.n1
  ∧ (mabLogits P X Y).n2 = Y.n1
  ∧ (∀ a i j, (mabLogits P X Y).val a i j =
      (∑ t in Finset.range (P.dim / P.num_heads),
        ((mabQ P X).splitHeads P.num_heads).val a i t *
          ((mabK P Y).splitHeads P.num_heads).val a j t) / Real.sqrt (P.dim : ℝ))
  ∧ (1 < P.num_heads → 0 < P.dim → P.dim / P.num_heads < P.dim) :=
  ⟨Nat.mul_comm P.num_heads X.n0, rfl, rfl, fun _ _ _ => rfl,
   fun h1 h2 => Nat.div_lt_self h2 h1⟩

/-- C7 witness: the theorem applied at a concrete 2-head, dim-4 MAB, with
the strictness hypotheses discharged. -/
theorem claim7_witness :
    1 < exMABh2.num_heads ∧ 0 < exMABh2.dim ∧
      exMABh2.dim / exMABh2.num_heads < exMABh2.dim :=
  ⟨by decide, by decide,
    (claim7_logits_scale exMABh2 exY1 exY1).2.2.2.2 (by decide) (by decide)⟩

theorem mabA_onesMask (P : MABParams) (X H : Tensor3) :
    mabA P X H (some (onesMask H.n0 H.n1)) = mabA P X H none := by
  refine Tensor3.ext3 rfl rfl rfl ?_
  intro a i j
  have hrow : ∀ t, maskedLogit
      (maskHeads P.num_heads (maskStack (mabQ P X).n1 (onesMask H.n0 H.n1)))
      (mabLogits P X H) a i t = RVal.fin ((mabLogits P X H).val a i t) := by
    intro t
    show (if (1:ℝ) = 0 then RVal.ninf else RVal.fin ((mabLogits P X H).val a i t)) = _
    rw [if_neg one_ne_zero]
  show nanToZero (softmaxNum (mabLogits P X H).n2
      (maskedLogit (maskHeads P.num_heads (maskStack (mabQ P X).n1 (onesMask H.n0 H.n1)))
        (mabLogits P X H) a i) j) = (plainSoftmax (mabLogits P X H)).val a i j
  unfold softmaxNum
  simp only [hrow]
  show nanToZero (if (∑ t in Finset.range (mabLogits P X H).n2,
      expv (RVal.fin ((mabLogits P X H).val a i t))) = 0 then RVal.nan
    else RVal.fin (expv (RVal.fin ((mabLogits P X H).val a i j)) /
      ∑ t in Finset.range (mabLogits P X H).n2,
        expv (RVal.fin ((mabLogits P X H).val a i t)))) = _
  split
  · rename_i hs
    have hs2 : ∑ t in Finset.range (mabLogits P X H).n2,
        Real.exp ((mabLogits P X H).val a i t) = 0 := hs
    show (0:ℝ) = (plainSoftmax (mabLogits P X H)).val a i j
    show (0:ℝ) = Real.exp ((mabLogits P X H).val a i j) /
      ∑ t in Finset.range (mabLogits P X H).n2, Real.exp ((mabLogits P X H).val a i t)
    rw [hs2, div_zero]
  · rfl

/-- C8: ISAB.forward(X, mask) is exactly MAB(X, PMA(X, mask)) with the mask
consumed only by the internal PMA stage and the outer MAB called with no
mask; moreover, attending onto a key set whose positions are all valid
(an all-ones mask over the inducing points) is the same as attending with no
mask at all, so passing no mask to the outer call loses nothing. -/
theorem claim8_isab_structure :
    (∀ (P : ISABParams) (X : Tensor3) (mask : Option Tensor2),
      isabForward P X mask = mabForward P.mab X (pmaForward P.pma X mask) none)
  ∧ (∀ (P : MABParams) (X H : Tensor3),
      mabForward P X H (some (onesMask H.n0 H.n1)) = mabForward P X H none) := by
  refine ⟨fun P X mask => rfl, fun P X H => ?_⟩
  have hattn : mabAttn P X H (some (onesMask H.n0 H.n1)) = mabAttn P X H none := by
    unfold mabAttn
    rw [mabA_onesMask]
  unfold mabForward mabO1
  rw [hattn]

theorem pmaForward_n1 (P : PMAParams) (X : Tensor3) (mask : Option Tensor2) :
    (pmaForward P X mask).n1 = P.num_inds :=
  mabForward_n1 P.mab ⟨X.n0, P.num_inds, P.dim, fun _ i j => P.seedI i j⟩ X mask

theorem apmaGrow_succ (P : APMAParams) (j : ℕ) (hj : 1 ≤ j) :
    apmaGrow P (j + 1) =
      (apmaGrow P j).cat1 (pmaForward P.pma (apmaGrow P j) none) := by
  unfold apmaGrow
  have h : j + 1 - 1 = (j - 1) + 1 := by omega
  rw [h, Function.iterate_succ_apply']

theorem apmaGrow_n0 (P : APMAParams) (j : ℕ) : (apmaGrow P j).n0 = 1 := by
  induction j with
  | zero => rfl
  | succ n ih =>
      by_cases hn : 1 ≤ n
      · rw [apmaGrow_succ P n hn]; exact ih
      · have h0 : n = 0 := by omega
        subst h0; rfl

theorem apmaGrow_n2 (P : APMAParams) (j : ℕ) : (apmaGrow P j).n2 = P.dim := by
  induction j with
  | zero => rfl
  | succ n ih =>
      by_cases hn : 1 ≤ n
      · rw [apmaGrow_succ P n hn]; exact ih
      · have h0 : n = 0 := by omega
        subst h0; rfl

theorem apmaGrow_n1 (P : APMAParams) (h1 : P.pma.num_inds = 1) :
    ∀ j, 1 ≤ j → (apmaGrow P j).n1 = j := by
  intro j
  induction j with
  | zero => omega
  | succ n ih =>
      intro _
      by_cases hn : 1 ≤ n
      · rw [apmaGrow_succ P n hn]
        show (apmaGrow P n).n1 + (pmaForward P.pma (apmaGrow P n) none).n1 = n + 1
        rw [ih hn, pmaForward_n1, h1]
      · have h0 : n = 0 := by omega
        subst h0; rfl

/-- C9: for num_iters = k ≥ 1, aPMA.forward returns a [batch, k, dim]
tensor; the seed collection is built from I0 by appending one new
PMA-pooled seed per extra iteration (the growth recurrence); and with
k = 1 the call is exactly a single PMA pooling step whose one seed is I0
and whose MAB is aPMA's own MAB. -/
theorem claim9_apma_growth (P : APMAParams) (dX dim nh : ℕ) (lnF : Bool)
    (p : Option ℝ) (res : Bool) (i0 : ℕ → ℝ) (seed : ℕ → ℕ → ℝ)
    (Wp Wm : MABWeights) (X : Tensor3) (k : ℕ)
    (hP : P = mkAPMA dX dim nh lnF p res i0 seed Wp Wm) (hk : 1 ≤ k)
    (hres : res = true ∨ (0 < nh ∧ nh ∣ dim)) :
    ((apmaForward P X k).n0 = X.n0 ∧ (apmaForward P X k).n1 = k ∧
      (apmaForward P X k).n2 = dim)
  ∧ (∀ j, 1 ≤ j → apmaGrow P (j + 1) =
      (apmaGrow P j).cat1 (pmaForward P.pma (apmaGrow P j) none))
  ∧ apmaForward P X 1 = pmaForward ⟨fun _ j => P.I0v j, 1, P.dim, P.mab⟩ X none := by
  subst hP
  have hres1 : (mkAPMA dX dim nh lnF p res i0 seed Wp Wm).mab.residual = true ∨
      0 < (mkAPMA dX dim nh lnF p res i0 seed Wp Wm).mab.num_heads := by
    rcases hres with h | h
    · exact Or.inl h
    · exact Or.inr h.1
  have hres2 : (mkAPMA dX dim nh lnF p res i0 seed Wp Wm).mab.residual = true ∨
      (0 < (mkAPMA dX dim nh lnF p res i0 seed Wp Wm).mab.num_heads ∧
        (mkAPMA dX dim nh lnF p res i0 seed Wp Wm).mab.num_heads ∣
          (mkAPMA dX dim nh lnF p res i0 seed Wp Wm).mab.dim) := by
    rcases hres with h | h
    · exact Or.inl h
    · exact Or.inr h
  refine ⟨⟨?_, ?_, ?_⟩, fun j hj => apmaGrow_succ _ j hj, ?_⟩
  · show (mabForward _ ((apmaGrow _ k).repeat0 X.n0) X none).n0 = X.n0
    rw [mabForward_n0 _ _ _ _ hres1]
    show X.n0 * (apmaGrow _ k).n0 = X.n0
    rw [apmaGrow_n0, Nat.mul_one]
  · show (mabForward _ ((apmaGrow _ k).repeat0 X.n0) X none).n1 = k
    rw [mabForward_n1]
    show (apmaGrow _ k).n1 = k
    exact apmaGrow_n1 _ rfl k hk
  · show (mabForward _ ((apmaGrow _ k).repeat0 X.n0) X none).n2 = dim
    rw [mabForward_n2 _ _ _ _ hres2]
    rfl
  · show mabForward _ ((apmaI0 _).repeat0 X.n0) X none = _
    have ht : (apmaI0 (mkAPMA dX dim nh lnF p res i0 seed Wp Wm)).repeat0 X.n0 =
        (⟨X.n0, 1, dim, fun _ _ j => i0 j⟩ : Tensor3) :=
      Tensor3.ext3 (Nat.mul_one X.n0) rfl rfl (fun b i j => rfl)
    rw [ht]
    rfl

/-- C9 witness: the theorem applied to a concretely constructed aPMA at
num_iters = 2, every hypothesis discharged. -/
theorem claim9_witness :
    (exAPMA = mkAPMA 1 1 1 false none true (fun _ => 0) (fun _ _ => 0) zeroW zeroW)
  ∧ 1 ≤ 2 ∧ (true = true ∨ (0 < 1 ∧ 1 ∣ 1))
  ∧ ((apmaForward exAPMA exY1 2).n0 = exY1.n0 ∧ (apmaForward exAPMA exY1 2).n1 = 2 ∧
      (apmaForward exAPMA exY1 2).n2 = 1) :=
  ⟨rfl, by decide, Or.inl rfl,
    (claim9_apma_growth exAPMA 1 1 1 false none true (fun _ => 0) (fun _ _ => 0)
      zeroW zeroW exY1 2 rfl (by decide) (Or.inl rfl)).1⟩

theorem foldl_replicate {α β : Type} (f : β → α → β) (c : α) :
    ∀ (n : ℕ) (x : β), List.foldl f x (List.replicate n c) = (fun z => f z c)^[n] x := by
  intro n
  induction n with
  | zero => intro x; rfl
  | succ n ih =>
      intro x
      show List.foldl f (f x c) (List.replicate n c) = _
      rw [ih (f x c)]
      exact (Function.iterate_succ_apply (fun z => f z c) n x).symm

/-- C10: in StackedSAB and StackedISAB the block list is
`[first] + [inner] * (num_blocks - 1)`, so every block after the first is
the very same constructed module (identical parameters, pairwise equal),
and the forward pass iterates that one inner block function num_blocks - 1
times after the first block. -/
theorem claim10_stacked_block_sharing (dX dim numInds k nh : ℕ) (lnF : Bool)
    (p : Option ℝ) (res : Bool) (Wf Wi : MABWeights) (seedF : ℕ → ℕ → ℝ)
    (WpF WmF : MABWeights) (seedI : ℕ → ℕ → ℝ) (WpI WmI : MABWeights)
    (X : Tensor3) (mask : Option Tensor2) :
    (∀ B ∈ (mkStackedSAB dX dim k nh lnF p res Wf Wi).tail,
        B = mkSAB dim dim nh lnF p res Wi)
  ∧ (∀ B1 ∈ (mkStackedSAB dX dim k nh lnF p res Wf Wi).tail,
      ∀ B2 ∈ (mkStackedSAB dX dim k nh lnF p res Wf Wi).tail, B1 = B2)
  ∧ stackedSABForward (mkStackedSAB dX dim k nh lnF p res Wf Wi) X mask =
      (fun Z => sabForward (mkSAB dim dim nh lnF p res Wi) Z mask)^[k - 1]
        (sabForward (mkSAB dX dim nh lnF p res Wf) X mask)
  ∧ (∀ B ∈ (mkStackedISAB dX dim numInds k nh lnF p res seedF WpF WmF
        seedI WpI WmI).tail,
        B = mkISAB dim dim numInds nh lnF p res seedI WpI WmI)
  ∧ stackedISABForward
        (mkStackedISAB dX dim numInds k nh lnF p res seedF WpF WmF seedI WpI WmI)
        X mask =
      (fun Z => isabForward (mkISAB dim dim numInds nh lnF p res seedI WpI WmI)
          Z mask)^[k - 1]
        (isabForward (mkISAB dX dim numInds nh lnF p res seedF WpF WmF) X mask) := by
  refine ⟨?_, ?_, ?_, ?_, ?_⟩
  · intro B hB
    exact List.eq_of_mem_replicate hB
  · intro B1 h1 B2 h2
    rw [List.eq_of_mem_replicate h1, List.eq_of_mem_replicate h2]
  · show List.foldl (fun acc Q => sabForward Q acc mask)
        (sabForward (mkSAB dX dim nh lnF p res Wf) X mask)
        (List.replicate (k - 1) (mkSAB dim dim nh lnF p res Wi)) = _
    exact foldl_replicate _ _ (k - 1) _
  · intro B hB
    exact List.eq_of_mem_replicate hB
  · show List.foldl (fun acc Q => isabForward Q acc mask)
        (isabForward (mkISAB dX dim numInds nh lnF p res seedF WpF WmF) X mask)
        (List.replicate (k - 1) (mkISAB dim dim numInds nh lnF p res seedI WpI WmI)) = _
    exact foldl_replicate _ _ (k - 1) _

/-- C10 witness: the sharing clauses applied to a concrete two-block
StackedSAB, with the membership hypotheses discharged at the second block. -/
theorem claim10_witness :
    (mkSAB 1 1 1 false none true zeroW ∈ exStackedSAB.tail)
  ∧ mkSAB 1 1 1 false none true zeroW = mkSAB 1 1 1 false none true zeroW := by
  have hmem : mkSAB 1 1 1 false none true zeroW ∈ exStackedSAB.tail := by
    show mkSAB 1 1 1 false none true zeroW ∈
      List.replicate 1 (mkSAB 1 1 1 false none true zeroW)
    exact List.mem_replicate.mpr ⟨one_ne_zero, rfl⟩
  exact ⟨hmem,
    (claim10_stacked_block_sharing 1 1 1 2 1 false none true zeroW zeroW
      (fun _ _ => 0) zeroW zeroW (fun _ _ => 0) zeroW zeroW exY1 none).1 _ hmem⟩

theorem mabA_masked_entry_zero (P : MABParams) (X Y : Tensor3) (m : Tensor2)
    (a i u : ℕ) (hmu : m.val (a % m.n0) u = 0) :
    (mabA P X Y (some m)).val a i u = 0 := by
  have hninf : maskedLogit (maskHeads P.num_heads (maskStack (mabQ P X).n1 m))
      (mabLogits P X Y) a i u = RVal.ninf := by
    show (if m.val (a % m.n0) u = 0 then RVal.ninf
        else RVal.fin ((mabLogits P X Y).val a i u)) = RVal.ninf
    rw [if_pos hmu]
  show nanToZero (softmaxNum (mabLogits P X Y).n2
      (maskedLogit (maskHeads P.num_heads (maskStack (mabQ P X).n1 m))
        (mabLogits P X Y) a i) u) = 0
  unfold softmaxNum
  rw [hninf]
  split
  · rfl
  · show nanToZero (RVal.fin (expv RVal.ninf / _)) = 0
    simp [expv, nanToZero]

/-- C4: with a mask supplied and dropout disabled, any two key/value tensors
that agree (in every feature) on every mask-valid position yield identical
MAB.forward outputs: the content of masked-out positions never influences
the output. -/
theorem claim4_masked_content_no_influence (P : MABParams) (X Y Y2 : Tensor3)
    (m : Tensor2) (_hp : P.p = none)
    (hn0 : Y2.n0 = Y.n0) (hn1 : Y2.n1 = Y.n1) (hn2 : Y2.n2 = Y.n2)
    (hm0 : m.n0 = Y.n0)
    (hagree : ∀ b j, j < Y.n1 → m.val b j ≠ 0 → ∀ c, Y2.val b j c = Y.val b j c) :
    mabForward P X Y2 (some m) = mabForward P X Y (some m) := by
  have hKlin : ∀ b j c, j < Y.n1 → m.val b j ≠ 0 →
      (mabK P Y2).val b j c = (mabK P Y).val b j c := by
    intro b j c hj hm
    show (∑ t in Finset.range Y2.n2, P.fc_k.w c t * Y2.val b j t) + P.fc_k.b c =
      (∑ t in Finset.range Y.n2, P.fc_k.w c t * Y.val b j t) + P.fc_k.b c
    rw [hn2]
    congr 1
    apply Finset.sum_congr rfl
    intro t _
    rw [hagree b j hj hm t]
  have hVlin : ∀ b j c, j < Y.n1 → m.val b j ≠ 0 →
      (mabV P Y2).val b j c = (mabV P Y).val b j c := by
    intro b j c hj hm
    show (∑ t in Finset.range Y2.n2, P.fc_v.w c t * Y2.val b j t) + P.fc_v.b c =
      (∑ t in Finset.range Y.n2, P.fc_v.w c t * Y.val b j t) + P.fc_v.b c
    rw [hn2]
    congr 1
    apply Finset.sum_congr rfl
    intro t _
    rw [hagree b j hj hm t]
  have hKs : ∀ a j c, j < Y.n1 → m.val (a % m.n0) j ≠ 0 →
      ((mabK P Y2).splitHeads P.num_heads).val a j c =
        ((mabK P Y).splitHeads P.num_heads).val a j c := by
    intro a j c hj hm
    rw [hm0] at hm
    show (mabK P Y2).val (a % Y2.n0) j
        ((a / Y2.n0) * (P.dim / P.num_heads) + c) =
      (mabK P Y).val (a % Y.n0) j ((a / Y.n0) * (P.dim / P.num_heads) + c)
    rw [hn0]
    exact hKlin (a % Y.n0) j _ hj hm
  have hVs : ∀ a j c, j < Y.n1 → m.val (a % m.n0) j ≠ 0 →
      ((mabV P Y2).splitHeads P.num_heads).val a j c =
        ((mabV P Y).splitHeads P.num_heads).val a j c := by
    intro a j c hj hm
    rw [hm0] at hm
    show (mabV P Y2).val (a % Y2.n0) j
        ((a / Y2.n0) * (P.dim / P.num_heads) + c) =
      (mabV P Y).val (a % Y.n0) j ((a / Y.n0) * (P.dim / P.num_heads) + c)
    rw [hn0]
    exact hVlin (a % Y.n0) j _ hj hm
  have hL : ∀ a i t, t < Y.n1 → m.val (a % m.n0) t ≠ 0 →
      (mabLogits P X Y2).val a i t = (mabLogits P X Y).val a i t := by
    intro a i t ht hm
    show (∑ c in Finset.range ((mabQ P X).n2 / P.num_heads),
        ((mabQ P X).splitHeads P.num_heads).val a i c *
          ((mabK P Y2).splitHeads P.num_heads).val a t c) /
        Real.sqrt (((mabQ P X).n2 : ℕ) : ℝ) =
      (∑ c in Finset.range ((mabQ P X).n2 / P.num_heads),
        ((mabQ P X).splitHeads P.num_heads).val a i c *
          ((mabK P Y).splitHeads P.num_heads).val a t c) /
        Real.sqrt (((mabQ P X).n2 : ℕ) : ℝ)
    congr 1
    apply Finset.sum_congr rfl
    intro c _
    rw [hKs a t c ht hm]
  have hrow : ∀ a i t, t < Y.n1 →
      maskedLogit (maskHeads P.num_heads (maskStack (mabQ P X).n1 m))
        (mabLogits P X Y2) a i t =
      maskedLogit (maskHeads P.num_heads (maskStack (mabQ P X).n1 m))
        (mabLogits P X Y) a i t := by
    intro a i t ht
    show (if m.val (a % m.n0) t = 0 then RVal.ninf
        else RVal.fin ((mabLogits P X Y2).val a i t)) =
      (if m.val (a % m.n0) t = 0 then RVal.ninf
        else RVal.fin ((mabLogits P X Y).val a i t))
    by_cases hmt : m.val (a % m.n0) t = 0
    · rw [if_pos hmt, if_pos hmt]
    · rw [if_neg hmt, if_neg hmt, hL a i t ht hmt]
  have hs : ∀ a i,
      (∑ t in Finset.range (mabLogits P X Y2).n2,
        expv (maskedLogit (maskHeads P.num_heads (maskStack (mabQ P X).n1 m))
          (mabLogits P X Y2) a i t)) =
      (∑ t in Finset.range (mabLogits P X Y).n2,
        expv (maskedLogit (maskHeads P.num_heads (maskStack (mabQ P X).n1 m))
          (mabLogits P X Y) a i t)) := by
    intro a i
    have h2 : (mabLogits P X Y2).n2 = (mabLogits P X Y).n2 := hn1
    rw [h2]
    apply Finset.sum_congr rfl
    intro t ht
    rw [Finset.mem_range] at ht
    rw [hrow a i t ht]
  have hA : ∀ a i u, u < Y.n1 →
      (mabA P X Y2 (some m)).val a i u = (mabA P X Y (some m)).val a i u := by
    intro a i u hu
    show nanToZero (softmaxNum (mabLogits P X Y2).n2
        (maskedLogit (maskHeads P.num_heads (maskStack (mabQ P X).n1 m))
          (mabLogits P X Y2) a i) u) =
      nanToZero (softmaxNum (mabLogits P X Y).n2
        (maskedLogit (maskHeads P.num_heads (maskStack (mabQ P X).n1 m))
          (mabLogits P X Y) a i) u)
    unfold softmaxNum
    rw [hs a i]
    by_cases hS : (∑ t in Finset.range (mabLogits P X Y).n2,
        expv (maskedLogit (maskHeads P.num_heads (maskStack (mabQ P X).n1 m))
          (mabLogits P X Y) a i t)) = 0
    · rw [if_pos hS, if_pos hS]
    · rw [if_neg hS, if_neg hS, hrow a i u hu]
  have hAV : (mabA P X Y2 (some m)).bmm ((mabV P Y2).splitHeads P.num_heads) =
      (mabA P X Y (some m)).bmm ((mabV P Y).splitHeads P.num_heads) := by
    refine Tensor3.ext3 rfl rfl rfl ?_
    intro a i c
    show ∑ u in Finset.range (mabA P X Y2 (some m)).n2,
        (mabA P X Y2 (some m)).val a i u *
          ((mabV P Y2).splitHeads P.num_heads).val a u c =
      ∑ u in Finset.range (mabA P X Y (some m)).n2,
        (mabA P X Y (some m)).val a i u *
          ((mabV P Y).splitHeads P.num_heads).val a u c
    have h2 : (mabA P X Y2 (some m)).n2 = Y.n1 := by rw [mabA_n2]; exact hn1
    have h3 : (mabA P X Y (some m)).n2 = Y.n1 := mabA_n2 P X Y (some m)
    rw [h2, h3]
    apply Finset.sum_congr rfl
    intro u hu
    rw [Finset.mem_range] at hu
    by_cases hmu : m.val (a % m.n0) u = 0
    · rw [mabA_masked_entry_zero P X Y2 m a i u hmu,
        mabA_masked_entry_zero P X Y m a i u hmu, zero_mul, zero_mul]
    · rw [hA a i u hu, hVs a u c hu hmu]
  have hattn : mabAttn P X Y2 (some m) = mabAttn P X Y (some m) := by
    unfold mabAttn
    rw [hAV]
  unfold mabForward mabO1
  rw [hattn]

/-- C4 witness: the theorem applied to a concrete MAB, query, mask (valid
at position 0 only) and two key/value tensors differing exactly at the
masked-out position 1, every hypothesis discharged. -/
theorem claim4_witness :
    (exMABouter.p = none ∧ exYw.n0 = exYv.n0 ∧ exYw.n1 = exYv.n1 ∧
      exYw.n2 = exYv.n2 ∧ exMaskFirst.n0 = exYv.n0 ∧
      (∀ b j, j < exYv.n1 → exMaskFirst.val b j ≠ 0 →
        ∀ c, exYw.val b j c = exYv.val b j c))
  ∧ mabForward exMABouter exY1 exYw (some exMaskFirst) =
      mabForward exMABouter exY1 exYv (some exMaskFirst) := by
  have hagree : ∀ b j, j < exYv.n1 → exMaskFirst.val b j ≠ 0 →
      ∀ c, exYw.val b j c = exYv.val b j c := by
    intro b j _ hm c
    by_cases h0 : j = 0
    · subst h0; rfl
    · exfalso
      apply hm
      show (if j = 0 then (1:ℝ) else 0) = 0
      rw [if_neg h0]
  exact ⟨⟨rfl, rfl, rfl, rfl, rfl, hagree⟩,
    claim4_masked_content_no_influence exMABouter exY1 exYv exYw exMaskFirst rfl
      rfl rfl rfl rfl hagree⟩

end
